import Mathlib

/-!
Verification of the dream-stream sleep-stage classification engine.

This file shallowly embeds the streaming classifier pipeline of
`scripts/adaptive_classifier.py`, `scripts/two_stage_with_priors.py` and
`scripts/hmm_classifier.py`: the three-class stage type, the streaming
feature extractor (bounded buffers, RMSSD, CV, mean successive
difference), the time-based REM propensity, the awake/REM gates with
debounce and hysteresis, the transition smoother, the offline
transition-matrix calibration, and the HMM emission model.

Python floats are modelled as rationals (`ℚ`).  The square root used
inside RMSSD/CV and the Gaussian densities of the HMM are irrational, so
those three values are abstracted: the feature extractor is parametrised
by the square-root function actually applied to the (rational) radicand,
and the HMM emission takes the two Gaussian density values as inputs.
Every property proved here is independent of those abstracted values in
exactly the way the corresponding source property is.
-/

/-- The three normalized sleep stages (`light`/`deep` collapse to `nrem`). -/
inductive Stage where
  | awake
  | nrem
  | rem
deriving DecidableEq, Repr

/-- Mean of a list of rationals (`statistics.mean`); `0` on the empty
list, which every use below guards against just as the source does. -/
def listMean (l : List ℚ) : ℚ := l.sum / l.length

/-- Python `l[-n:]`: the last `min n (length l)` elements. -/
def lastN (n : ℕ) (l : List ℚ) : List ℚ := l.drop (l.length - n)

/-- Successive absolute differences
`[abs(l[i] - l[i-1]) for i in range(1, len(l))]`. -/
def succDiffs : List ℚ → List ℚ
  | a :: b :: rest => |b - a| :: succDiffs (b :: rest)
  | _ => []

/-- Bounded FIFO push used for `recent_hrs` and `rmssd_history`:
append, then `pop(0)` when the capacity is exceeded. -/
def pushCap (cap : ℕ) (buf : List ℚ) (x : ℚ) : List ℚ :=
  let b := buf ++ [x]
  if cap < b.length then b.tail else b

/-- The radicand of RMSSD: mean of squared successive differences
(`sum(diffs_sq) / len(diffs_sq)` in the source). -/
def meanSqDiff (recent : List ℚ) : ℚ :=
  ((succDiffs recent).map (fun d => d * d)).sum / (succDiffs recent).length

/-- RMSSD over the recent-HR buffer (`adaptive_classifier.py` lines
231-241): `math.sqrt` of the mean squared successive difference when at
least 2 values are buffered, else the sentinel `10`.  `sqrtFn` abstracts
`math.sqrt`. -/
def computeRMSSD (sqrtFn : ℚ → ℚ) (recent : List ℚ) : ℚ :=
  if 2 ≤ recent.length then sqrtFn (meanSqDiff recent) else 10

/-- The awake-signal feature: `statistics.mean(diffs[-10:])` when the
buffer has at least 2 values, else `0` (`adaptive_classifier.py` lines
231-239). -/
def meanDiffF (recent : List ℚ) : ℚ :=
  if 2 ≤ recent.length then listMean (lastN 10 (succDiffs recent)) else 0

/-- The same statistic as collected by the calibrator
(`adaptive_classifier.py` lines 101-106): guarded by
`len(recent_hrs) >= 2`, then `mean(diffs[-10:]) if len(diffs) >= 1 else 0`. -/
def calibMeanDiff (recent : List ℚ) : ℚ :=
  if 2 ≤ recent.length then
    if 1 ≤ (succDiffs recent).length then listMean (lastN 10 (succDiffs recent)) else 0
  else 0

/-- CV of the RMSSD history (`adaptive_classifier.py` lines 249-261):
population standard deviation over mean when at least 3 entries are
buffered and the mean exceeds `0.1`, else the default `0.5`.  `sqrtFn`
abstracts `math.sqrt`, applied to the population variance. -/
def computeCV (sqrtFn : ℚ → ℚ) (history : List ℚ) : ℚ :=
  if 3 ≤ history.length then
    let m := listMean history
    if m > 1/10 then
      sqrtFn ((history.map (fun v => (v - m) ^ 2)).sum / history.length) / m
    else 1/2
  else 1/2

/-- Feature-extractor state: the bounded recent-HR buffer (capacity 20)
and the bounded RMSSD history (capacity 10). -/
structure FEState where
  recentHRs : List ℚ
  rmssdHistory : List ℚ
deriving Repr

/-- One feature-extraction step per heart-rate sample
(`adaptive_classifier.py` lines 226-245): push the bpm into the
recent-HR buffer, compute RMSSD, push it into the RMSSD history. -/
def feStep (sqrtFn : ℚ → ℚ) (st : FEState) (bpm : ℚ) : FEState :=
  let recent := pushCap 20 st.recentHRs bpm
  { recentHRs := recent
    rmssdHistory := pushCap 10 st.rmssdHistory (computeRMSSD sqrtFn recent) }

/-- Feature extraction over a whole session, from the empty per-session
state. -/
def feProcess (sqrtFn : ℚ → ℚ) (samples : List ℚ) : FEState :=
  samples.foldl (feStep sqrtFn) ⟨[], []⟩

/-- Time-based REM propensity (`adaptive_classifier.py` lines 283-291,
identical in `two_stage_with_priors.py` lines 166-174): zero before
minute 70, otherwise derived from the 90-minute ultradian cycle index
and position within the cycle. -/
def timeRemProb (minutes : ℚ) : ℚ :=
  if minutes < 70 then 0
  else
    let cycle : ℤ := ⌊minutes / 90⌋
    let pos := (minutes - 90 * cycle) / 90
    let baseProb := min (7/20) (1/10 + (cycle : ℚ) * (2/25))
    if pos ≥ 13/20 then baseProb * 2 else baseProb * (3/10)

/-- The REM-gate score (`two_stage_with_priors.py` lines 176-182;
`adaptive_classifier.py` lines 293-299 with `cvThreshold = 1/5`):
a blend of the time propensity, a CV-stability bonus and a strong-CV
bonus. -/
def remScore (cvThreshold minutes cv : ℚ) : ℚ :=
  let cvRemSignal : ℚ := if cv < cvThreshold then 1 else 0
  (1/2) * timeRemProb minutes + (1/2) * cvRemSignal * (1/2) +
    (if cv < cvThreshold * (7/10) then 3/20 else 0)

/-- The rem score recomputed inside the adaptive classifier's hysteresis
block (`adaptive_classifier.py` lines 329-336): same blend but without
the strong-CV bonus. -/
def hysteresisScore (minutes cv : ℚ) : ℚ :=
  (1/2) * timeRemProb minutes + (1/2) * (if cv < 1/5 then (1:ℚ) else 0) * (1/2)

/-- Dynamic awake threshold of the adaptive classifier
(`adaptive_classifier.py` lines 194-202); the learned awake-prior lookup
is passed in as the already-resolved `prior` value. -/
def get_dynamic_threshold (useDynamicThresh : Bool) (base prior : ℚ) : ℚ :=
  if useDynamicThresh = false then base
  else if prior > 1/4 then base * (17/20)
  else if prior < 1/20 then base * (13/10)
  else base

/-- Time-based awake prior of `two_stage_with_priors.py` lines 54-66. -/
def get_awake_prior (minutes : ℚ) : ℚ :=
  if minutes < 30 then 7/20
  else if minutes < 60 then 1/100
  else if minutes < 90 then 33/100
  else if minutes < 330 then 1/10
  else if minutes < 360 then 3/10
  else min (13/20) (3/10 + (minutes - 360) * (3/1000))

/-- Dynamic awake threshold of `two_stage_with_priors.py` lines 69-76
(additive variant: `base - 0.5` / `base + 1.0`). -/
def twoStageDynThreshold (minutes base : ℚ) : ℚ :=
  let prior := get_awake_prior minutes
  if prior > 1/4 then base - 1/2
  else if prior < 1/20 then base + 1
  else base

/-- Python's `max(row.items(), key=value)[0]` over insertion order
`awake, nrem, rem`: the first state attaining the row maximum (a later
state wins only by a strictly greater value). -/
def rowArgmax (row : Stage → ℚ) : Stage :=
  let m1 := if row Stage.nrem > row Stage.awake then Stage.nrem else Stage.awake
  if row Stage.rem > row m1 then Stage.rem else m1

/-- Transition smoother (`adaptive_classifier.py` lines 315-323): veto
the raw label when its transition probability from the previous label is
below the `0.12` floor, replacing it with the row argmax. -/
def smooth (M : Stage → Stage → ℚ) (prev raw : Stage) : Stage :=
  if M prev raw < 12/100 then rowArgmax (M prev) else raw

/-- Per-sample features consumed by the decision machines, as produced
by the streaming feature extractor. -/
structure Features where
  meanDiff : ℚ
  cv : ℚ
  minutes : ℚ
deriving Repr

/-- Per-session mutable classifier state: the two debounce counters and
the previously emitted label (initially `nrem`). -/
structure ClassifierState where
  consecRem : ℕ
  consecAwake : ℕ
  prev : Stage
deriving DecidableEq, Repr

/-- Configuration of `run_adaptive_classifier`: the three feature flags,
the learned base threshold, the learned awake-prior lookup
(`get_learned_awake_prior`, abstracted as a function of elapsed
minutes) and the learned transition matrix. -/
structure AdaptiveConfig where
  useTimePrior : Bool
  useTransitions : Bool
  useDynamicThresh : Bool
  baseThreshold : ℚ
  priorFn : ℚ → ℚ
  trans : Stage → Stage → ℚ

/-- The consecutive-awake counter update of `run_adaptive_classifier`
(lines 273-277): incremented/reset only in the non-blended
(`use_time_prior = False`) mode, untouched in the blended mode. -/
def adaptiveAwakeCounter (cfg : AdaptiveConfig) (st : ClassifierState) (f : Features) : ℕ :=
  if cfg.useTimePrior then st.consecAwake
  else if f.meanDiff >
      get_dynamic_threshold cfg.useDynamicThresh cfg.baseThreshold (cfg.priorFn f.minutes)
    then st.consecAwake + 1 else 0

/-- The awake gate of `run_adaptive_classifier` (lines 265-277): in the
blended mode, the awake score (HR signal blended with the time prior)
exceeds `0.4`; in the debounced mode, the consecutive-awake counter
reaches `AWAKE_CONSECUTIVE_REQUIRED = 1`. -/
def adaptiveRawAwake (cfg : AdaptiveConfig) (st : ClassifierState) (f : Features) : Bool :=
  if cfg.useTimePrior then
    let dynThresh :=
      get_dynamic_threshold cfg.useDynamicThresh cfg.baseThreshold (cfg.priorFn f.minutes)
    let hrSignal := min 1 (max 0 ((f.meanDiff - dynThresh + 3/2) / 3))
    decide ((7/10) * hrSignal + (3/10) * cfg.priorFn f.minutes > 2/5)
  else decide (1 ≤ adaptiveAwakeCounter cfg st f)

/-- The raw-label stage of `run_adaptive_classifier` (lines 279-313):
awake gate, then the time-gated REM gate with its 2-sample debounce.
Returns the raw label and the updated consecutive-REM counter. -/
def adaptiveRaw (cfg : AdaptiveConfig) (st : ClassifierState) (f : Features) :
    Stage × ℕ :=
  if adaptiveRawAwake cfg st f then (Stage.awake, 0)
  else if f.minutes < 70 then (Stage.nrem, 0)
  else if remScore (1/5) f.minutes f.cv > 1/4 then
    (if 2 ≤ st.consecRem + 1 then Stage.rem else Stage.nrem, st.consecRem + 1)
  else (Stage.nrem, 0)

/-- One full step of `run_adaptive_classifier` (lines 263-344): raw
label, optional transition smoothing, sticky-REM hysteresis (guarded by
`minutes >= 70` and using the bonus-free `hysteresisScore`), and the
final consecutive-awake reset of lines 340-341. -/
def adaptiveStep (cfg : AdaptiveConfig) (st : ClassifierState) (f : Features) :
    Stage × ClassifierState :=
  let raw := (adaptiveRaw cfg st f).1
  let cr := (adaptiveRaw cfg st f).2
  let smoothed := if cfg.useTransitions then smooth cfg.trans st.prev raw else raw
  let predicted :=
    if st.prev = Stage.rem ∧ smoothed = Stage.nrem then
      if f.minutes ≥ 70 ∧ hysteresisScore f.minutes f.cv > 3/20 then Stage.rem
      else smoothed
    else smoothed
  let ca :=
    if cfg.useTimePrior = false ∧ predicted ≠ Stage.awake then 0
    else adaptiveAwakeCounter cfg st f
  (predicted, ⟨cr, ca, predicted⟩)

/-- Configuration of `two_stage_with_priors.run_classifier`. -/
structure TwoStageConfig where
  baseThresh : ℚ
  useDynamic : Bool
  cvThreshold : ℚ

/-- The awake threshold used by `run_classifier` (lines 147-151). -/
def twoStageAwakeThresh (cfg : TwoStageConfig) (minutes : ℚ) : ℚ :=
  if cfg.useDynamic then twoStageDynThreshold minutes cfg.baseThresh else cfg.baseThresh

/-- One full step of `two_stage_with_priors.run_classifier` (lines
112-205): awake signal with a 1-sample debounce, the REM gate with its
2-sample debounce, and the sticky-REM hysteresis (previous label `rem`,
new label `nrem`, `rem_score > 0.15`). -/
def twoStageStep (cfg : TwoStageConfig) (st : ClassifierState) (f : Features) :
    Stage × ClassifierState :=
  let awakeSignal := f.meanDiff > twoStageAwakeThresh cfg f.minutes
  let ca := if awakeSignal then st.consecAwake + 1 else 0
  if 1 ≤ ca then (Stage.awake, ⟨0, ca, Stage.awake⟩)
  else
    let score := remScore cfg.cvThreshold f.minutes f.cv
    let (predicted, cr) :=
      if f.minutes < 70 then (Stage.nrem, 0)
      else if score > 1/4 then
        let cr := st.consecRem + 1
        (if 2 ≤ cr then Stage.rem else Stage.nrem, cr)
      else (Stage.nrem, 0)
    let predicted :=
      if st.prev = Stage.rem ∧ predicted = Stage.nrem ∧ score > 3/20 then Stage.rem
      else predicted
    (predicted, ⟨cr, ca, predicted⟩)

/-- Number of adjacent `(s, t)` stage pairs in a session's normalized
stage sequence (`transitions[prev_stage][actual] += 1`). -/
def countPairs (s t : Stage) : List Stage → ℕ
  | a :: b :: rest => (if a = s ∧ b = t then 1 else 0) + countPairs s t (b :: rest)
  | _ => 0

/-- Total `(s, t)` transition count over all sessions of at least 5
records (`learn_parameters`, lines 68-82). -/
def transCount (sessions : List (List Stage)) (s t : Stage) : ℕ :=
  ((sessions.filter (fun sess => 5 ≤ sess.length)).map (countPairs s t)).sum

/-- Row total `sum(transitions[from_stage].values())` of
`learn_parameters` line 120. -/
def rowTotal (sessions : List (List Stage)) (s : Stage) : ℕ :=
  transCount sessions s Stage.awake + transCount sessions s Stage.nrem +
    transCount sessions s Stage.rem

/-- The learned transition matrix (`learn_parameters`, lines 118-128):
normalized counts when the source state has observed transitions, else
the constant `0.33` fallback. -/
def learned_transitions (sessions : List (List Stage)) (s t : Stage) : ℚ :=
  if 0 < rowTotal sessions s then (transCount sessions s t : ℚ) / rowTotal sessions s
  else 33/100

/-- Time-dependent emission multiplier of `HMMClassifier.emission_prob`
(`hmm_classifier.py` lines 164-172): `1` for `awake`/`nrem`; for `rem`,
`0.001` before minute 60, `0.3` from 60 to 90, then
`min(1.5, 0.5 + 0.25 * cycle)` with `cycle = int(minutes / 90)`. -/
def timeFactor (state : Stage) (minutes : ℚ) : ℚ :=
  match state with
  | Stage.rem =>
      if minutes < 60 then 1/1000
      else if minutes < 90 then 3/10
      else min (3/2) (1/2 + (⌊minutes / 90⌋ : ℚ) * (1/4))
  | _ => 1

/-- Emission likelihood of `HMMClassifier.emission_prob` (lines
156-174): the two Gaussian density values (abstracted as the inputs
`pCv`, `pRmssd`, since they involve `exp`/`sqrt`) times the time
multiplier, plus the `1e-10` guard for the subsequent logarithm. -/
def emission_prob (pCv pRmssd : ℚ) (state : Stage) (minutes : ℚ) : ℚ :=
  pCv * pRmssd * timeFactor state minutes + 1/10000000000

/-- A row-stochastic transition matrix (as the calibrator could learn it)
whose `nrem` row makes `nrem -> nrem` improbable (`0.1 < 0.12`) with row
argmax `rem`. -/
def earlyRemM : Stage → Stage → ℚ
  | Stage.awake, Stage.awake => 6/10
  | Stage.awake, Stage.nrem => 3/10
  | Stage.awake, Stage.rem => 1/10
  | Stage.nrem, Stage.awake => 0
  | Stage.nrem, Stage.nrem => 1/10
  | Stage.nrem, Stage.rem => 9/10
  | Stage.rem, Stage.awake => 1/10
  | Stage.rem, Stage.nrem => 3/10
  | Stage.rem, Stage.rem => 6/10

/-- An adaptive configuration with transition smoothing enabled and the
`earlyRemM` matrix. -/
def earlyRemCfg : AdaptiveConfig :=
  ⟨false, true, false, 3, fun _ => 1/10, earlyRemM⟩

/-- A batch with a single 5-record all-awake session: the `awake` row of
the learned matrix is observed, the `nrem` and `rem` rows are not. -/
def calibSessions : List (List Stage) :=
  [[Stage.awake, Stage.awake, Stage.awake, Stage.awake, Stage.awake]]

/-- A demonstration matrix whose rows give probability `0.8` to `rem`
and `0.1` to the other stages. -/
def smootherDemoM : Stage → Stage → ℚ := fun _ t =>
  match t with
  | Stage.rem => 8/10
  | _ => 1/10

/-- Characterisation of `rowArgmax`: it attains the row maximum, and a
later state in the priority order `awake, nrem, rem` is selected only
when strictly greater than every earlier state. -/
lemma rowArgmax_spec (row : Stage → ℚ) :
    (∀ s, row s ≤ row (rowArgmax row)) ∧
    (rowArgmax row = Stage.nrem → row Stage.awake < row Stage.nrem) ∧
    (rowArgmax row = Stage.rem →
      row Stage.awake < row Stage.rem ∧ row Stage.nrem < row Stage.rem) := by
  simp only [rowArgmax]
  split_ifs with h1 h2 h2 <;> push_neg at *
  · exact ⟨fun s => by cases s <;> linarith, by simp,
      fun _ => ⟨by linarith, h2⟩⟩
  · exact ⟨fun s => by cases s <;> linarith, fun _ => h1, by simp⟩
  · exact ⟨fun s => by cases s <;> linarith, by simp,
      fun _ => ⟨h2, by linarith⟩⟩
  · exact ⟨fun s => by cases s <;> linarith, by simp, by simp⟩

/-- The successive-difference list is one shorter than its input. -/
lemma succDiffs_length (l : List ℚ) : (succDiffs l).length = l.length - 1 := by
  induction l with
  | nil => rfl
  | cons a t ih =>
    cases t with
    | nil => rfl
    | cons b r =>
      simp only [succDiffs, List.length_cons] at *
      omega

/-- Unfolding equation for `succDiffs` on two or more elements. -/
lemma succDiffs_cons₂ (a b : ℚ) (l : List ℚ) :
    succDiffs (a :: b :: l) = |b - a| :: succDiffs (b :: l) := rfl

/-- Successive differences of a concatenation split at the first element
of the right part. -/
lemma succDiffs_append (xs : List ℚ) (y : ℚ) (ys : List ℚ) :
    succDiffs (xs ++ y :: ys) = succDiffs (xs ++ [y]) ++ succDiffs (y :: ys) := by
  induction xs with
  | nil => simp [succDiffs]
  | cons x xs ih =>
    cases xs with
    | nil => simp [succDiffs]
    | cons x2 r =>
      simp only [List.cons_append] at ih ⊢
      rw [succDiffs_cons₂, succDiffs_cons₂, ih, List.cons_append]

/-- Python `l[-n:]` is the identity on lists of at most `n` elements. -/
lemma lastN_eq_of_length_le (n : ℕ) (l : List ℚ) (h : l.length ≤ n) : lastN n l = l := by
  simp [lastN, Nat.sub_eq_zero_of_le h]

/-- Python `(a ++ b)[-n:]` is `b` when `b` has exactly `n` elements. -/
lemma lastN_append (n : ℕ) (a b : List ℚ) (h : b.length = n) : lastN n (a ++ b) = b := by
  simp only [lastN, List.length_append, h, Nat.add_sub_cancel]
  exact List.drop_left a b

/-- Length of a bounded push: grows by one until the capacity is hit. -/
lemma pushCap_length (cap : ℕ) (buf : List ℚ) (x : ℚ) :
    (pushCap cap buf x).length =
      if cap < buf.length + 1 then buf.length else buf.length + 1 := by
  simp only [pushCap, List.length_append, List.length_singleton]
  split_ifs with h <;> simp [List.length_tail]

/-- Processing one more sample is one `feStep` on the processed state. -/
lemma feProcess_append (sqrtFn : ℚ → ℚ) (l : List ℚ) (x : ℚ) :
    feProcess sqrtFn (l ++ [x]) = feStep sqrtFn (feProcess sqrtFn l) x := by
  simp [feProcess, List.foldl_append]

/-- Invariant of the feature extractor over a whole session: buffer
lengths are capped at 20 and 10, and for the first ten samples the
RMSSD history still starts with the `10` sentinel produced at the first
sample. -/
lemma feProcess_invariant (sqrtFn : ℚ → ℚ) (l : List ℚ) :
    (feProcess sqrtFn l).recentHRs.length = min l.length 20 ∧
    (feProcess sqrtFn l).rmssdHistory.length = min l.length 10 ∧
    (1 ≤ l.length → l.length ≤ 10 →
      (feProcess sqrtFn l).rmssdHistory.head? = some 10) := by
  induction l using List.reverseRecOn with
  | nil => simp [feProcess]
  | append_singleton l x ih =>
    obtain ⟨ih1, ih2, ih3⟩ := ih
    rw [feProcess_append]
    simp only [feStep, List.length_append, List.length_singleton]
    refine ⟨?_, ?_, ?_⟩
    · rw [pushCap_length, ih1]
      split_ifs <;> omega
    · rw [pushCap_length, ih2]
      split_ifs <;> omega
    · intro _ h10
      have hhist : ∀ v : ℚ, pushCap 10 (feProcess sqrtFn l).rmssdHistory v =
          (feProcess sqrtFn l).rmssdHistory ++ [v] := by
        intro v
        simp only [pushCap]
        rw [if_neg]
        simp only [List.length_append, List.length_singleton]
        omega
      rw [hhist]
      rcases Nat.eq_zero_or_pos l.length with h0 | hpos
      · have hnil : l = [] := List.length_eq_zero.mp h0
        subst hnil
        simp [feProcess, pushCap, computeRMSSD]
      · have hhd := ih3 hpos (by omega)
        cases hh : (feProcess sqrtFn l).rmssdHistory with
        | nil => rw [hh] at hhd; simp at hhd
        | cons a t =>
          rw [hh] at hhd
          simp only [List.head?_cons, Option.some.injEq] at hhd
          simp [hh, hhd]

/-- Claim C1 is false as stated: with transition smoothing enabled and a
row-stochastic learned matrix whose `nrem` row has `nrem -> nrem`
probability `0.1 < 0.12` and argmax `rem`, the smoother overrides the
raw `nrem` label to `rem` at elapsed minute 30, i.e. before the
70-minute sleep latency. -/
theorem C1_counterexample :
    (30:ℚ) < 70 ∧
    (earlyRemM Stage.nrem Stage.awake + earlyRemM Stage.nrem Stage.nrem +
      earlyRemM Stage.nrem Stage.rem = 1) ∧
    (adaptiveStep earlyRemCfg ⟨0, 0, Stage.nrem⟩ ⟨0, 1/2, 30⟩).1 = Stage.rem := by
  refine ⟨by norm_num, by norm_num [earlyRemM], ?_⟩
  norm_num [adaptiveStep, adaptiveRaw, adaptiveRawAwake, adaptiveAwakeCounter,
    get_dynamic_threshold, smooth, rowArgmax, earlyRemCfg, earlyRemM]

/-- Claim C1 (amended): before minute 70 the raw label produced by the
awake and REM gates is never `rem`, for every configuration of
thresholds and flags; and when transition smoothing is disabled the
emitted label (after hysteresis) is never `rem` either.  With smoothing
enabled the smoother can override to `rem` (see the counterexample). -/
theorem C1_amended (cfg : AdaptiveConfig) (st : ClassifierState) (f : Features)
    (hm : f.minutes < 70) :
    (adaptiveRaw cfg st f).1 ≠ Stage.rem ∧
    (cfg.useTransitions = false → (adaptiveStep cfg st f).1 ≠ Stage.rem) := by
  have hraw : (adaptiveRaw cfg st f).1 ≠ Stage.rem := by
    simp only [adaptiveRaw]
    split_ifs <;> simp_all
  refine ⟨hraw, fun htr => ?_⟩
  have h70 : ¬ (f.minutes ≥ 70 ∧ hysteresisScore f.minutes f.cv > 3/20) := by
    rintro ⟨h, -⟩
    linarith
  simp only [adaptiveStep, htr, Bool.false_eq_true, if_false, if_neg h70]
  split_ifs <;> simpa using hraw

/-- Witness for C1 (amended) at a concrete configuration, state and
sample at minute 30. -/
theorem C1_witness :
    (adaptiveRaw earlyRemCfg ⟨0, 0, Stage.nrem⟩ ⟨0, 1/2, 30⟩).1 ≠ Stage.rem ∧
    (adaptiveStep ⟨false, false, false, 3, fun _ => 1/10, earlyRemM⟩
      ⟨0, 0, Stage.nrem⟩ ⟨0, 1/2, 30⟩).1 ≠ Stage.rem :=
  ⟨(C1_amended earlyRemCfg ⟨0, 0, Stage.nrem⟩ ⟨0, 1/2, 30⟩ (by norm_num)).1,
   (C1_amended ⟨false, false, false, 3, fun _ => 1/10, earlyRemM⟩
      ⟨0, 0, Stage.nrem⟩ ⟨0, 1/2, 30⟩ (by norm_num)).2 rfl⟩

/-- Claim C2: if the previous emitted state is `nrem`, the
consecutive-REM counter is clear, and two consecutive samples after
minute 70 have `remScore > 0.25` with the awake gate not firing, then
the classifier emits `nrem` on the first qualifying sample and `rem` on
the second - never `rem` on the first. -/
theorem C2_rem_debounce (cfg : TwoStageConfig) (st : ClassifierState) (f1 f2 : Features)
    (hprev : st.prev = Stage.nrem) (hcr : st.consecRem = 0)
    (ha1 : ¬ f1.meanDiff > twoStageAwakeThresh cfg f1.minutes)
    (ha2 : ¬ f2.meanDiff > twoStageAwakeThresh cfg f2.minutes)
    (hm1 : ¬ f1.minutes < 70) (hm2 : ¬ f2.minutes < 70)
    (hs1 : remScore cfg.cvThreshold f1.minutes f1.cv > 1/4)
    (hs2 : remScore cfg.cvThreshold f2.minutes f2.cv > 1/4) :
    (twoStageStep cfg st f1).1 = Stage.nrem ∧
    (twoStageStep cfg ((twoStageStep cfg st f1).2) f2).1 = Stage.rem := by
  have h1 : twoStageStep cfg st f1 = (Stage.nrem, ⟨1, 0, Stage.nrem⟩) := by
    simp only [twoStageStep, if_neg ha1, hcr, hprev]
    norm_num [if_neg hm1]
    split_ifs <;> simp_all
  rw [h1]
  refine ⟨rfl, ?_⟩
  simp only [twoStageStep, if_neg ha2]
  norm_num [if_neg hm2]
  split_ifs <;> simp_all

/-- Witness for C2: two identical qualifying samples at minute 150 with
zero CV produce `nrem` then `rem`. -/
theorem C2_witness :
    (twoStageStep ⟨3, false, 1/5⟩ ⟨0, 0, Stage.nrem⟩ ⟨0, 0, 150⟩).1 = Stage.nrem ∧
    (twoStageStep ⟨3, false, 1/5⟩
      ((twoStageStep ⟨3, false, 1/5⟩ ⟨0, 0, Stage.nrem⟩ ⟨0, 0, 150⟩).2) ⟨0, 0, 150⟩).1 =
        Stage.rem :=
  C2_rem_debounce ⟨3, false, 1/5⟩ ⟨0, 0, Stage.nrem⟩ ⟨0, 0, 150⟩ ⟨0, 0, 150⟩ rfl rfl
    (by norm_num [twoStageAwakeThresh]) (by norm_num [twoStageAwakeThresh])
    (by norm_num) (by norm_num)
    (by norm_num [remScore, timeRemProb]) (by norm_num [remScore, timeRemProb])

/-- Claim C3: the smoother overrides exactly when
`transitionMatrix[prev][raw] < 0.12`, in which case the output is the
row argmax - the maximal entry with ties broken by the fixed priority
order `awake, nrem, rem` - and otherwise the output is the raw label. -/
theorem C3_transition_smoother (M : Stage → Stage → ℚ) (prev raw : Stage) :
    (M prev raw < 12/100 →
      smooth M prev raw = rowArgmax (M prev) ∧
      (∀ s, M prev s ≤ M prev (rowArgmax (M prev))) ∧
      (rowArgmax (M prev) = Stage.nrem → M prev Stage.awake < M prev Stage.nrem) ∧
      (rowArgmax (M prev) = Stage.rem →
        M prev Stage.awake < M prev Stage.rem ∧ M prev Stage.nrem < M prev Stage.rem)) ∧
    (¬ M prev raw < 12/100 → smooth M prev raw = raw) := by
  refine ⟨fun h => ⟨?_, (rowArgmax_spec (M prev)).1, (rowArgmax_spec (M prev)).2.1,
    (rowArgmax_spec (M prev)).2.2⟩, fun h => ?_⟩
  · simp only [smooth, if_pos h]
  · simp only [smooth, if_neg h]

/-- Witness for C3: both the override branch (entry `0.1 < 0.12`) and
the pass-through branch (entry `0.8`) at a concrete matrix. -/
theorem C3_witness :
    ((1:ℚ)/10 < 12/100 ∧
      smooth smootherDemoM Stage.nrem Stage.nrem = rowArgmax (smootherDemoM Stage.nrem)) ∧
    (¬ ((8:ℚ)/10 < 12/100) ∧ smooth smootherDemoM Stage.nrem Stage.rem = Stage.rem) :=
  ⟨⟨by norm_num,
    ((C3_transition_smoother smootherDemoM Stage.nrem Stage.nrem).1
      (by norm_num [smootherDemoM])).1⟩,
   ⟨by norm_num,
    (C3_transition_smoother smootherDemoM Stage.nrem Stage.rem).2
      (by norm_num [smootherDemoM])⟩⟩

/-- Claim C4: with dynamic thresholding on, the threshold is
`base * 0.85` for `prior > 0.25`, `base * 1.3` for `prior < 0.05`, and
`base` on the whole closed band `[0.05, 0.25]`, including both boundary
values exactly. -/
theorem C4_dynamic_threshold (base prior : ℚ) :
    (prior > 1/4 → get_dynamic_threshold true base prior = base * (17/20)) ∧
    (prior < 1/20 → get_dynamic_threshold true base prior = base * (13/10)) ∧
    (1/20 ≤ prior → prior ≤ 1/4 → get_dynamic_threshold true base prior = base) ∧
    get_dynamic_threshold true base (1/20) = base ∧
    get_dynamic_threshold true base (1/4) = base := by
  refine ⟨fun h => ?_, fun h => ?_, fun h1 h2 => ?_, ?_, ?_⟩ <;>
    simp only [get_dynamic_threshold] <;> split_ifs <;>
    first | rfl | linarith | simp_all

/-- Witness for C4 at priors `0.5`, `0.01` and `0.1` with base `3`. -/
theorem C4_witness :
    ((1:ℚ)/2 > 1/4 ∧ get_dynamic_threshold true 3 (1/2) = 3 * (17/20)) ∧
    ((1:ℚ)/100 < 1/20 ∧ get_dynamic_threshold true 3 (1/100) = 3 * (13/10)) ∧
    ((1:ℚ)/20 ≤ 1/10 ∧ (1:ℚ)/10 ≤ 1/4 ∧ get_dynamic_threshold true 3 (1/10) = 3) :=
  ⟨⟨by norm_num, (C4_dynamic_threshold 3 (1/2)).1 (by norm_num)⟩,
   ⟨by norm_num, (C4_dynamic_threshold 3 (1/100)).2.1 (by norm_num)⟩,
   ⟨by norm_num, by norm_num,
    (C4_dynamic_threshold 3 (1/10)).2.2.1 (by norm_num) (by norm_num)⟩⟩

/-- Claim C5 is false as stated: with previous label `rem` and
`remScore = 0.427 > 0.15`, a sample that fires the awake gate is emitted
as `awake`, not `rem` - the hysteresis only rescues a newly computed
`nrem`, not every non-`rem` label. -/
theorem C5_counterexample :
    (twoStageStep ⟨3, false, 1/5⟩ ⟨0, 0, Stage.rem⟩ ⟨5, 0, 100⟩).1 = Stage.awake ∧
    Stage.awake ≠ Stage.rem ∧ remScore (1/5) 100 0 > 3/20 := by
  refine ⟨?_, by simp, ?_⟩
  · norm_num [twoStageStep, twoStageAwakeThresh]
  · norm_num [remScore, timeRemProb]

/-- Claim C5 (amended): if the previous emitted label is `rem`, the
awake gate does not fire, and `remScore` exceeds the `0.15` hysteresis
threshold, the classifier emits `rem`. -/
theorem C5_amended (cfg : TwoStageConfig) (st : ClassifierState) (f : Features)
    (hprev : st.prev = Stage.rem)
    (ha : ¬ f.meanDiff > twoStageAwakeThresh cfg f.minutes)
    (hs : remScore cfg.cvThreshold f.minutes f.cv > 3/20) :
    (twoStageStep cfg st f).1 = Stage.rem := by
  simp only [twoStageStep, if_neg ha, hprev]
  norm_num [hs]
  split_ifs <;> simp_all

/-- Witness for C5 (amended): previous label `rem`, quiet HR, zero CV at
minute 30 stays `rem`. -/
theorem C5_witness :
    (twoStageStep ⟨3, false, 1/5⟩ ⟨0, 0, Stage.rem⟩ ⟨0, 0, 30⟩).1 = Stage.rem :=
  C5_amended ⟨3, false, 1/5⟩ ⟨0, 0, Stage.rem⟩ ⟨0, 0, 30⟩ rfl
    (by norm_num [twoStageAwakeThresh]) (by norm_num [remScore, timeRemProb])

/-- Claim C6 is false as stated: for a batch in which no transition out
of `nrem` is observed, the `nrem` row of the learned matrix is the
constant `0.33`, so it sums to `0.99`, not `1`, and no cell equals
`1/3`. -/
theorem C6_counterexample :
    learned_transitions calibSessions Stage.nrem Stage.awake +
        learned_transitions calibSessions Stage.nrem Stage.nrem +
        learned_transitions calibSessions Stage.nrem Stage.rem ≠ 1 ∧
      learned_transitions calibSessions Stage.nrem Stage.awake ≠ 1/3 := by
  constructor <;>
    · simp +decide [learned_transitions, rowTotal, transCount, countPairs, calibSessions]
      norm_num

/-- Claim C6 (amended): a row of the learned transition matrix with at
least one observed transition sums to exactly `1`; a row with none is
the constant `0.33` per cell (an approximation of the uniform `1/3`
that sums to `0.99`). -/
theorem C6_amended (sessions : List (List Stage)) (s : Stage) :
    (0 < rowTotal sessions s →
      learned_transitions sessions s Stage.awake + learned_transitions sessions s Stage.nrem +
        learned_transitions sessions s Stage.rem = 1) ∧
    (rowTotal sessions s = 0 → ∀ t, learned_transitions sessions s t = 33/100) := by
  constructor
  · intro h
    have h0 : (rowTotal sessions s : ℚ) ≠ 0 :=
      Nat.cast_ne_zero.mpr (Nat.pos_iff_ne_zero.mp h)
    simp only [learned_transitions, if_pos h]
    rw [div_add_div_same, div_add_div_same, div_eq_one_iff_eq h0]
    simp only [rowTotal]
    push_cast
    ring
  · intro h t
    simp only [learned_transitions]
    rw [if_neg (by omega)]

/-- Witness for C6 (amended) on the single-session batch: the observed
`awake` row sums to `1`, the unobserved `rem` row is constant `0.33`. -/
theorem C6_witness :
    (0 < rowTotal calibSessions Stage.awake ∧
      learned_transitions calibSessions Stage.awake Stage.awake +
        learned_transitions calibSessions Stage.awake Stage.nrem +
        learned_transitions calibSessions Stage.awake Stage.rem = 1) ∧
    (rowTotal calibSessions Stage.rem = 0 ∧
      learned_transitions calibSessions Stage.rem Stage.nrem = 33/100) :=
  ⟨⟨by decide, (C6_amended calibSessions Stage.awake).1 (by decide)⟩,
   ⟨by decide, (C6_amended calibSessions Stage.rem).2 (by decide) Stage.nrem⟩⟩

/-- Claim C7: with fewer than 2 buffered heart rates RMSSD is exactly
`10`; CV is exactly `0.5` whenever the RMSSD history has fewer than 3
entries, regardless of contents, and also whenever the history mean is
below `0.1`.  The functions are total: no error is possible. -/
theorem C7_insufficient_history (sqrtFn : ℚ → ℚ) (recent history : List ℚ) :
    (recent.length < 2 → computeRMSSD sqrtFn recent = 10) ∧
    (history.length < 3 → computeCV sqrtFn history = 1/2) ∧
    (listMean history < 1/10 → computeCV sqrtFn history = 1/2) := by
  refine ⟨fun h => ?_, fun h => ?_, fun h => ?_⟩
  · simp only [computeRMSSD]
    rw [if_neg (by omega)]
  · simp only [computeCV]
    rw [if_neg (by omega)]
  · simp only [computeCV]
    split_ifs <;> first | rfl | linarith

/-- Witness for C7 on concrete short buffers and an all-zero history. -/
theorem C7_witness :
    computeRMSSD id [(5:ℚ)] = 10 ∧ computeCV id [(1:ℚ), 2] = 1/2 ∧
      computeCV id [(0:ℚ), 0, 0] = 1/2 :=
  ⟨(C7_insufficient_history id [5] [1, 2]).1 (by norm_num),
   (C7_insufficient_history id [5] [1, 2]).2.1 (by norm_num),
   (C7_insufficient_history id [5] [0, 0, 0]).2.2 (by norm_num [listMean])⟩

/-- Claim C8 is false as stated: the emission value is the product of
the densities and the time multiplier plus the `1e-10` log-guard, so it
never equals the bare product. -/
theorem C8_counterexample :
    emission_prob 1 1 Stage.awake 0 ≠ 1 * 1 * timeFactor Stage.awake 0 := by
  norm_num [emission_prob, timeFactor]

/-- Claim C8 (amended): the emission likelihood is the product of the
two Gaussian densities and the time multiplier plus the `1e-10`
log-guard; the multiplier is `1` for `awake` and `nrem`; for `rem` it
is at most `0.3` (suppression) before minute 70 - its actual
breakpoints being 60 and 90 minutes - nondecreasing in elapsed minutes
from minute 70 on, and capped at `1.5`. -/
theorem C8_amended (pCv pRmssd minutes : ℚ) :
    (∀ s, emission_prob pCv pRmssd s minutes =
      pCv * pRmssd * timeFactor s minutes + 1/10000000000) ∧
    timeFactor Stage.awake minutes = 1 ∧
    timeFactor Stage.nrem minutes = 1 ∧
    (minutes < 70 → timeFactor Stage.rem minutes ≤ 3/10) ∧
    (∀ m2, 70 ≤ minutes → minutes ≤ m2 →
      timeFactor Stage.rem minutes ≤ timeFactor Stage.rem m2) ∧
    timeFactor Stage.rem minutes ≤ 3/2 := by
  refine ⟨fun s => rfl, rfl, rfl, fun h => ?_, fun m2 h1 h2 => ?_, ?_⟩
  · simp only [timeFactor]
    split_ifs <;> linarith
  · have hfloor : (⌊minutes / 90⌋ : ℚ) ≤ (⌊m2 / 90⌋ : ℚ) := by
      exact_mod_cast Int.floor_le_floor (by linarith)
    simp only [timeFactor]
    rcases lt_or_le m2 90 with hm2 | hm2
    · rw [if_neg (by linarith), if_pos (by linarith), if_neg (by linarith), if_pos hm2]
    · rcases lt_or_le minutes 90 with hm1 | hm1
      · rw [if_neg (by linarith), if_pos hm1, if_neg (by linarith), if_neg (by linarith)]
        have hc : (1:ℤ) ≤ ⌊m2 / 90⌋ := by
          rw [Int.le_floor]
          push_cast
          rw [le_div_iff₀ (by norm_num)]
          linarith
        have hc' : (1:ℚ) ≤ (⌊m2 / 90⌋ : ℚ) := by exact_mod_cast hc
        exact le_min (by norm_num) (by linarith)
      · rw [if_neg (by linarith), if_neg (by linarith), if_neg (by linarith),
          if_neg (by linarith)]
        exact min_le_min le_rfl (by linarith)
  · simp only [timeFactor]
    split_ifs <;> first | linarith | exact min_le_left _ _

/-- Witness for C8 (amended) at concrete density values and minutes 30,
100 and 200. -/
theorem C8_witness :
    (emission_prob 1 1 Stage.rem 100 = 1 * 1 * timeFactor Stage.rem 100 + 1/10000000000) ∧
    ((30:ℚ) < 70 ∧ timeFactor Stage.rem 30 ≤ 3/10) ∧
    ((70:ℚ) ≤ 100 ∧ (100:ℚ) ≤ 200 ∧ timeFactor Stage.rem 100 ≤ timeFactor Stage.rem 200) :=
  ⟨(C8_amended 1 1 100).1 Stage.rem,
   ⟨by norm_num, (C8_amended 1 1 30).2.2.2.1 (by norm_num)⟩,
   ⟨by norm_num, by norm_num,
    (C8_amended 1 1 100).2.2.2.2.1 200 (by norm_num) (by norm_num)⟩⟩

/-- Claim C9: the awake-signal mean-diff feature depends only on the
last 11 buffered heart rates (the last 10 successive differences), the
calibrator collects the same statistic, and older samples still affect
the RMSSD radicand, witnessed by two buffers sharing their last 11
entries. -/
theorem C9_meanDiff_window :
    (∀ xs ys : List ℚ, ys.length = 11 → meanDiffF (xs ++ ys) = meanDiffF ys) ∧
    (∀ recent : List ℚ, 2 ≤ recent.length → calibMeanDiff recent = meanDiffF recent) ∧
    meanSqDiff ((100:ℚ) :: List.replicate 11 50) ≠ meanSqDiff (List.replicate 11 (50:ℚ)) := by
  refine ⟨fun xs ys h => ?_, fun recent h => ?_, ?_⟩
  · obtain ⟨y, ys', rfl⟩ : ∃ y ys', ys = y :: ys' := by
      cases ys with
      | nil => simp at h
      | cons y t => exact ⟨y, t, rfl⟩
    have hlen2 : 2 ≤ (xs ++ y :: ys').length := by
      simp only [List.length_cons] at h
      simp only [List.length_append, List.length_cons]
      omega
    have hlen2' : 2 ≤ (y :: ys').length := by
      simp only [List.length_cons] at h ⊢
      omega
    have hd : (succDiffs (y :: ys')).length = 10 := by
      rw [succDiffs_length]
      simp only [List.length_cons] at h ⊢
      omega
    simp only [meanDiffF, if_pos hlen2, if_pos hlen2']
    rw [succDiffs_append, lastN_append 10 _ _ hd, lastN_eq_of_length_le 10 _ (by omega)]
  · simp only [calibMeanDiff, meanDiffF, if_pos h]
    rw [if_pos]
    rw [succDiffs_length]
    omega
  · norm_num [meanSqDiff, succDiffs, List.replicate]

/-- Witness for C9: prepending `100` to eleven `50`s leaves the
mean-diff feature unchanged, and the calibrator statistic agrees on a
2-element buffer. -/
theorem C9_witness :
    meanDiffF ((100:ℚ) :: List.replicate 11 50) = meanDiffF (List.replicate 11 (50:ℚ)) ∧
    calibMeanDiff [(3:ℚ), 7] = meanDiffF [(3:ℚ), 7] :=
  ⟨C9_meanDiff_window.1 [100] (List.replicate 11 50) (by simp),
   C9_meanDiff_window.2.1 [3, 7] (by norm_num)⟩

/-- Claim C10: every computed RMSSD, including the `10` sentinel of the
first sample, is appended to the capacity-10 history; after `n` samples
the history has `min n 10` entries (hence is non-empty from the first
sample on), and for `n` at most 10 it still starts with the sentinel, so
early CV windows contain it until it is evicted. -/
theorem C10_rmssd_history (sqrtFn : ℚ → ℚ) (samples : List ℚ) (n : ℕ)
    (h1 : 1 ≤ n) (h2 : n ≤ samples.length) :
    ((feProcess sqrtFn (samples.take n)).rmssdHistory).length = min n 10 ∧
    (n ≤ 10 → ((feProcess sqrtFn (samples.take n)).rmssdHistory).head? = some 10) := by
  have hl : (samples.take n).length = n := by
    rw [List.length_take]
    omega
  obtain ⟨-, i2, i3⟩ := feProcess_invariant sqrtFn (samples.take n)
  rw [hl] at i2 i3
  exact ⟨i2, fun h => i3 h1 h⟩

/-- Witness for C10 after two samples of a concrete session. -/
theorem C10_witness :
    ((feProcess id ([(50:ℚ), 51, 52].take 2)).rmssdHistory).length = min 2 10 ∧
    ((feProcess id ([(50:ℚ), 51, 52].take 2)).rmssdHistory).head? = some 10 :=
  ⟨(C10_rmssd_history id [50, 51, 52] 2 (by norm_num) (by norm_num)).1,
   (C10_rmssd_history id [50, 51, 52] 2 (by norm_num) (by norm_num)).2 (by norm_num)⟩
